import Mathlib

/-!
Verification development for the arqut-server-ce WebRTC infrastructure
server (Go). The definitions below are a shallow embedding of the parts
of the source relevant to the frozen claims: the TURN REST
authentication callback (`internal/turn/auth.go`), credential issuance
(`generateTURNCredentials` in the API and signaling packages), secret
rotation (`UpdateSecrets`, the `/admin/secrets` route), the service
store (`internal/storage/sqlite.go`), the service-sync handlers
(signaling package), the peer registry (`registry.AddPeer` and friends)
and the WebSocket admission / teardown path (`handleWebSocket`).

Conventions used throughout:
* Go `string` is Lean `String`; `len(s)` (bytes) is `String.utf8ByteSize`.
* Unix times and Go `int`/`int64` are Lean `Int`; the zero value of
  Go `time.Time` is modelled as the integer `0`.
* External cryptographic primitives (HMAC-SHA256 + base64 from the Go
  standard library, and `turn.GenerateAuthKey` = MD5(username:realm:
  password) from the pion library) are modelled as injective functions
  of their inputs (ideal, collision-free hashes): the model keeps the
  pre-image instead of the digest.
-/

/-- Decimal digit characters, used to model Go `fmt.Sprintf("%d", _)`
and `strconv.ParseInt(_, 10, 64)`. -/
def decDigit : Nat → Char
  | 0 => '0'
  | 1 => '1'
  | 2 => '2'
  | 3 => '3'
  | 4 => '4'
  | 5 => '5'
  | 6 => '6'
  | 7 => '7'
  | 8 => '8'
  | 9 => '9'
  | _ => '*'

/-- Test for an ASCII decimal digit, as Go's integer parsing accepts. -/
def isDec (c : Char) : Bool := '0' ≤ c && c ≤ '9'

/-- Numeric value of an ASCII decimal digit. -/
def decVal (c : Char) : Nat := c.toNat - 48

/-- Little-endian decimal digits, with explicit fuel so that the
recursion is structural (the fuel never runs out when it starts at the
number itself). -/
def natDecRevCharsAux : Nat → Nat → List Char
  | _, 0 => []
  | 0, _ + 1 => []
  | fuel + 1, n + 1 => decDigit ((n + 1) % 10) :: natDecRevCharsAux fuel ((n + 1) / 10)

/-- Little-endian decimal digits of a natural number. -/
def natDecRevChars (n : Nat) : List Char := natDecRevCharsAux n n

/-- Decimal rendering of a natural number, as Go `%d` prints it. -/
def natToDecChars (n : Nat) : List Char :=
  if n = 0 then ['0'] else (natDecRevChars n).reverse

/-- Decimal rendering of an integer, as Go `%d` prints an `int64`. -/
def intToDecChars (i : Int) : List Char :=
  if i < 0 then '-' :: natToDecChars i.natAbs else natToDecChars i.toNat

/-- Value of a big-endian digit string, the accumulator loop of Go's
`strconv.ParseInt`. -/
def parseDecValue (l : List Char) : Nat :=
  l.foldl (fun a c => 10 * a + decVal c) 0

/-- Parse a non-empty all-digit string into a natural number; `none`
mirrors a Go parse error. -/
def parseDecNat (l : List Char) : Option Nat :=
  if l = [] then none
  else if l.all isDec then some (parseDecValue l) else none

/-- Character-level worker for the `strconv.ParseInt` model: optional
sign, decimal digits, 64-bit signed range. -/
def goParseInt64Chars : List Char → Option Int
  | [] => none
  | c :: rest =>
    if c = '-' then
      (parseDecNat rest).bind fun n =>
        if n ≤ 9223372036854775808 then some (-(n : Int)) else none
    else if c = '+' then
      (parseDecNat rest).bind fun n =>
        if n ≤ 9223372036854775807 then some ((n : Int)) else none
    else
      (parseDecNat (c :: rest)).bind fun n =>
        if n ≤ 9223372036854775807 then some ((n : Int)) else none

/-- Model of Go `strconv.ParseInt(s, 10, 64)`. -/
def goParseInt64 (s : String) : Option Int := goParseInt64Chars s.data

/-- Split a character list at every occurrence of `sep`, keeping empty
segments, as Go `strings.Split` does. -/
def splitCharList (sep : Char) : List Char → List (List Char)
  | [] => [[]]
  | c :: cs =>
    if c = sep then
      [] :: splitCharList sep cs
    else
      match splitCharList sep cs with
      | [] => [[c]]
      | h :: t => (c :: h) :: t

/-- Model of Go `strings.SplitN(s, ":", 3)` on the character level: at
most three parts, the third being the unsplit remainder. -/
def goSplitN3Chars (l : List Char) : List (List Char) :=
  match splitCharList ':' l with
  | [] => []
  | [a] => [a]
  | [a, b] => [a, b]
  | a :: b :: rest => [a, b, List.intercalate [':'] rest]

/-- Model of Go `strings.SplitN(username, ":", 3)` as used by
`restAuth` in `internal/turn/auth.go`. -/
def goSplitN3 (s : String) : List String :=
  (goSplitN3Chars s.data).map (fun l => String.mk l)

/-- Result of `base64.StdEncoding.EncodeToString(hmac.New(sha256.New,
secret).Sum(username))`. The Go standard-library crypto is external to
the repository; the composition is modelled as the injective pair of
its inputs (an ideal MAC). -/
structure MacTag where
  secret : String
  message : String
deriving DecidableEq, Repr

/-- TURN credential password: `base64_std(HMAC_SHA256(secret, username))`
(modelled injectively, see `MacTag`). -/
def hmacSha256B64 (secret username : String) : MacTag := ⟨secret, username⟩

/-- Key material returned by the pion library's `turn.GenerateAuthKey`,
namely `MD5(username ":" realm ":" password)`. The MD5 is external to
the repository and modelled as the injective triple of its inputs. -/
structure LongTermKey where
  username : String
  realm : String
  password : MacTag
deriving DecidableEq, Repr

/-- Model of `turn.GenerateAuthKey(username, realm, password)`. -/
def generateAuthKey (username realm : String) (password : MacTag) : LongTermKey :=
  ⟨username, realm, password⟩

/-- REST-mode state of `turn.AuthHandler`: the current secret, the
grace-period old secrets and the configured ttl (the mutex guarding
them is irrelevant to the sequential model). -/
structure AuthHandlerState where
  secret : String
  oldSecrets : List String
  ttl : Int
deriving DecidableEq, Repr

/-- Model of `AuthHandler.restAuth` (internal/turn/auth.go:60-147):
split the username with `SplitN(_, ":", 3)`, require exactly three
parts, parse the third as an `int64` expiry, reject if expired
(`expiry < now`) or too far in the future (`expiry > now + 48h`), then
walk `secret :: oldSecrets`, skip empty secrets, and return the key
material derived from the FIRST non-empty secret (the source loop
returns unconditionally in its first iteration that reaches the body).
`none` models the `(nil, false)` rejection. -/
def restAuth (h : AuthHandlerState) (now : Int) (username realm : String) :
    Option LongTermKey :=
  match goSplitN3 username with
  | [_, _, timestampStr] =>
    match goParseInt64 timestampStr with
    | none => none
    | some expiry =>
      if expiry < now then none
      else if now + 172800 < expiry then none
      else
        match (h.secret :: h.oldSecrets).find? (fun s => !(s == "")) with
        | none => none
        | some s => some (generateAuthKey username realm (hmacSha256B64 s username))
  | _ => none

/-- Model of `AuthHandler.UpdateSecrets` (internal/turn/auth.go:174-183):
replace the current secret, the old secrets and the ttl atomically. -/
def UpdateSecrets (h : AuthHandlerState) (current : String) (old : List String)
    (ttl : Int) : AuthHandlerState :=
  { h with secret := current, oldSecrets := old, ttl := ttl }

/-- TURN credential username `peerType ":" peerID ":" expiry`, as built
by `fmt.Sprintf("%s:%s:%d", peerType, peerID, expiry)`. -/
def turnUsername (peerType peerID : String) (expiry : Int) : String :=
  peerType ++ ":" ++ peerID ++ ":" ++ String.mk (intToDecChars expiry)

/-- An issued TURN credential triple. -/
structure TurnCredential where
  username : String
  password : MacTag
  expiry : Int
deriving DecidableEq, Repr

/-- Model of `generateTURNCredentials(peerType, peerID, ttl)` (identical
in internal/api and internal/signaling): `expiry = now + ttl`, username
`peerType:peerID:expiry`, password `base64(HMAC-SHA256(secret, username))`. -/
def generateTURNCredentials (secret : String) (now : Int)
    (peerType peerID : String) (ttl : Int) : TurnCredential :=
  let expiry := now + ttl
  let username := turnUsername peerType peerID expiry
  ⟨username, hmacSha256B64 secret username, expiry⟩

/-- Modelled from the spec: the long-term-credential mechanism of the
external relay library (pion/turn). The relay computes
`MD5(username:realm:password)` from the client's password and accepts
the allocation iff it equals the key material that the
`AuthHandler` callback returned. The MD5 comparison itself lives in
the library, outside this repository's sources. -/
def relayAccepts (h : AuthHandlerState) (now : Int) (username realm : String)
    (clientPassword : MacTag) : Bool :=
  match restAuth h now username realm with
  | none => false
  | some key => key == generateAuthKey username realm clientPassword

/-- Acceptance condition of claim C1 exactly as that claim states it
(a spec-side formalization, to be compared with the behaviour of
`restAuth`): examined at time `t`, a credential issued at `t0` with
ttl `T` is accepted iff `t0 ≤ t < t0 + T`, `t < t0 + 48h`, and the
credential's HMAC password matches one recomputed under at least one
non-empty secret of the snapshot. -/
def claimC1Accepts (t0 T t : Int) (secrets : List String)
    (credPassword : MacTag) (username : String) : Prop :=
  t0 ≤ t ∧ t < t0 + T ∧ t < t0 + 172800 ∧
    ∃ s ∈ secrets, s ≠ "" ∧ hmacSha256B64 s username = credPassword

instance (t0 T t : Int) (secrets : List String) (credPassword : MacTag)
    (username : String) :
    Decidable (claimC1Accepts t0 T t secrets credPassword username) := by
  unfold claimC1Accepts
  infer_instance

/-- Durable service record (`models.EdgeService`); `createdAt` and
`updatedAt` are unix times. -/
structure EdgeService where
  id : String
  edgeID : String
  name : String
  tunnelPort : Int
  localHost : String
  localPort : Int
  protocol : String
  enabled : Bool
  createdAt : Int
  updatedAt : Int
deriving DecidableEq, Repr

/-- The service table of the SQLite store, as the list of its rows. -/
abbrev Store := List EdgeService

/-- Errors surfaced by the storage layer (`internal/storage/sqlite.go`):
`notFound` is the "service not found" error, `duplicateId` the unique-
constraint violation GORM reports when `Create` hits an existing
primary key. -/
inductive StoreError
  | notFound
  | duplicateId
deriving DecidableEq, Repr

deriving instance DecidableEq for Except

/-- Model of `SQLiteStorage.GetEdgeService`: first row with the id. -/
def getEdgeService (st : Store) (id : String) : Option EdgeService :=
  List.find? (fun svc => svc.id == id) st

/-- Model of `SQLiteStorage.CreateEdgeService`: plain INSERT, which the
engine rejects when the primary key already exists. -/
def createEdgeService (st : Store) (svc : EdgeService) : Except StoreError Store :=
  if List.any st (fun s => s.id == svc.id) then Except.error StoreError.duplicateId
  else Except.ok (st ++ [svc])

/-- Model of `SQLiteStorage.UpdateEdgeService` (GORM `Save`): replace
the row with the same primary key, inserting when absent. -/
def updateEdgeService (st : Store) (svc : EdgeService) : Store :=
  if List.any st (fun s => s.id == svc.id) then
    List.map (fun s => if s.id == svc.id then svc else s) st
  else st ++ [svc]

/-- Model of `SQLiteStorage.DeleteEdgeService`: DELETE by id; when no
row was affected the method returns the "service not found" error. -/
def deleteEdgeService (st : Store) (id : String) : Except StoreError Store :=
  let remaining := List.filter (fun s => !(s.id == id)) st
  if remaining.length == (st : List EdgeService).length then Except.error StoreError.notFound
  else Except.ok remaining

/-- Validation failures of `validateService` (signaling package),
one constructor per error message in the source. -/
inductive ValidationError
  | idRequired
  | idTooLong
  | edgeIdRequired
  | nameRequired
  | nameTooLong
  | nameInvalidChars
  | localHostRequired
  | tunnelPortInvalid
  | localPortInvalid
  | protocolInvalid
deriving DecidableEq, Repr

/-- Characters admitted by the service-name pattern `^[a-zA-Z0-9 _-]+$`. -/
def nameCharOk (c : Char) : Bool :=
  c.isAlpha || c.isDigit || c == ' ' || c == '_' || c == '-'

/-- Model of `validateService` (signaling package): the checks in source
order; Go `len` on strings counts bytes. -/
def validateService (svc : EdgeService) : Except ValidationError Unit :=
  if svc.id = "" then Except.error ValidationError.idRequired
  else if 8 < svc.id.utf8ByteSize then Except.error ValidationError.idTooLong
  else if svc.edgeID = "" then Except.error ValidationError.edgeIdRequired
  else if svc.name = "" then Except.error ValidationError.nameRequired
  else if 128 < svc.name.utf8ByteSize then Except.error ValidationError.nameTooLong
  else if !(List.all svc.name.data nameCharOk) then Except.error ValidationError.nameInvalidChars
  else if svc.localHost = "" then Except.error ValidationError.localHostRequired
  else if svc.tunnelPort < 1 || 65535 < svc.tunnelPort then Except.error ValidationError.tunnelPortInvalid
  else if svc.localPort < 1 || 65535 < svc.localPort then Except.error ValidationError.localPortInvalid
  else if !(svc.protocol == "http") && !(svc.protocol == "websocket") then Except.error ValidationError.protocolInvalid
  else Except.ok ()

/-- Failures of the service-sync helper operations in the signaling
package. -/
inductive SyncOpError
  | notFoundErr
  | ownershipErr
  | storeFail (e : StoreError)
deriving DecidableEq, Repr

/-- Model of `Server.createService`: stamp both timestamps with now and
insert. -/
def createService (now : Int) (st : Store) (svc : EdgeService) :
    Except SyncOpError Store :=
  (createEdgeService st { svc with createdAt := now, updatedAt := now }).mapError
    SyncOpError.storeFail

/-- Model of `Server.updateService`: fetch the incumbent (failure means
"service not found"), refuse when its `edge_id` differs from the
message's (rebound) edge id, else copy the mutable fields onto the
incumbent, stamp `updatedAt`, and save. -/
def updateService (now : Int) (st : Store) (svc : EdgeService) :
    Except SyncOpError Store :=
  match getEdgeService st svc.id with
  | none => Except.error SyncOpError.notFoundErr
  | some existing =>
    if existing.edgeID ≠ svc.edgeID then Except.error SyncOpError.ownershipErr
    else Except.ok (updateEdgeService st
      { existing with
        name := svc.name, tunnelPort := svc.tunnelPort,
        localHost := svc.localHost, localPort := svc.localPort,
        protocol := svc.protocol, enabled := svc.enabled, updatedAt := now })

/-- Model of `Server.deleteService`: delegate straight to the store.
The source performs NO ownership check on this path. -/
def deleteService (st : Store) (id : String) : Except SyncOpError Store :=
  (deleteEdgeService st id).mapError SyncOpError.storeFail

/-- Acknowledgment frame sent by `sendServiceSyncAck`. -/
structure SyncAck where
  localId : String
  serverId : String
  status : String
  errorMsg : String
deriving DecidableEq, Repr

/-- Model of `Server.handleServiceSync` for a message whose `data` and
`service` fields parsed: rebind `service.edge_id` to the connection's
peer id, validate, dispatch on the operation, and emit exactly one ack
(the error-text payload is abbreviated to a constant per error kind). -/
def handleServiceSync (now : Int) (connPeerId : String) (operation : String)
    (svc0 : EdgeService) (st : Store) : Store × SyncAck :=
  let service := { svc0 with edgeID := connPeerId }
  match validateService service with
  | Except.error _ => (st, ⟨service.id, service.id, "error", "validation failed"⟩)
  | Except.ok _ =>
    if operation = "created" then
      match createService now st service with
      | Except.error _ => (st, ⟨service.id, "", "error", "create failed"⟩)
      | Except.ok st' => (st', ⟨service.id, service.id, "success", ""⟩)
    else if operation = "updated" then
      match updateService now st service with
      | Except.error _ => (st, ⟨service.id, "", "error", "update failed"⟩)
      | Except.ok st' => (st', ⟨service.id, service.id, "success", ""⟩)
    else if operation = "deleted" then
      match deleteService st service.id with
      | Except.error _ => (st, ⟨service.id, "", "error", "delete failed"⟩)
      | Except.ok st' => (st', ⟨service.id, service.id, "success", ""⟩)
    else (st, ⟨service.id, "", "error", "invalid operation"⟩)

/-- One entry of a `service-sync-batch` message after the JSON layer:
either it failed to cast/unmarshal, or it parsed into a record. -/
inductive BatchEntry
  | malformed
  | parsed (svc : EdgeService)
deriving DecidableEq, Repr

/-- Store calls attempted by the batch loop, in order. -/
inductive TraceOp
  | triedUpdate (id : String)
  | triedCreate (id : String)
deriving DecidableEq, Repr

/-- Loop state of `handleServiceSyncBatch`: the evolving store, the
success and failure tallies, and the trace of attempted store calls. -/
structure BatchState where
  store : Store
  success : Nat
  failed : Nat
  trace : List TraceOp
deriving DecidableEq, Repr

/-- One iteration of the batch loop: parse/validate failures count as
failed; otherwise try `updateService` first and, when it fails FOR ANY
REASON, fall back to `createService` (the source tests only `err !=
nil`, not the not-found cause). -/
def batchStep (now : Int) (connPeerId : String) (st : BatchState)
    (e : BatchEntry) : BatchState :=
  match e with
  | BatchEntry.malformed => { st with failed := st.failed + 1 }
  | BatchEntry.parsed svc0 =>
    let svc := { svc0 with edgeID := connPeerId }
    match validateService svc with
    | Except.error _ => { st with failed := st.failed + 1 }
    | Except.ok _ =>
      match updateService now st.store svc with
      | Except.ok store' =>
        { st with store := store', success := st.success + 1,
                  trace := st.trace ++ [TraceOp.triedUpdate svc.id] }
      | Except.error _ =>
        match createService now st.store svc with
        | Except.ok store' =>
          { st with store := store', success := st.success + 1,
                    trace := st.trace ++ [TraceOp.triedUpdate svc.id, TraceOp.triedCreate svc.id] }
        | Except.error _ =>
          { st with failed := st.failed + 1,
                    trace := st.trace ++ [TraceOp.triedUpdate svc.id, TraceOp.triedCreate svc.id] }

/-- Outcome of `handleServiceSyncBatch` on the wire: either the single
top-level `error` frame (no ack), or the single summary ack. -/
inductive BatchResult
  | errorMsg (msg : String)
  | ack (status message : String)
deriving DecidableEq, Repr

/-- The `maxBatchSize` constant of the signaling package. -/
def maxBatchSize : Nat := 1000

/-- Model of `Server.handleServiceSyncBatch` for a message whose
`services` array parsed: refuse oversize batches with one `error`
frame and no store access, else run the upsert loop over every entry
and emit exactly one summary ack. -/
def handleServiceSyncBatch (now : Int) (connPeerId : String)
    (entries : List BatchEntry) (st : Store) : BatchState × BatchResult :=
  if maxBatchSize < entries.length then
    (⟨st, 0, 0, []⟩,
      BatchResult.errorMsg ("Batch size exceeds maximum of " ++ toString maxBatchSize ++ " services"))
  else
    let fin := entries.foldl (batchStep now connPeerId) ⟨st, 0, 0, []⟩
    (fin, BatchResult.ack "success" ("Synced " ++ toString fin.success ++ " services"))

/-- In-memory peer descriptor (`models.Peer`); times are unix seconds
with `0` for the Go `time.Time` zero value. -/
structure Peer where
  id : String
  type : String
  edgeID : String
  publicKey : String
  connected : Bool
  lastPing : Int
  createdAt : Int
deriving DecidableEq, Repr

/-- The peer registry's map, keyed by peer id. -/
abbrev Registry := List (String × Peer)

/-- Model of `Registry.AddPeer` (registry package): stamp `CreatedAt`
with now ONLY when the supplied descriptor carries the zero value, set
`Connected` and `LastPing`, and insert/replace the map entry. -/
def addPeer (now : Int) (reg : Registry) (p : Peer) : Registry :=
  let p' := { p with
    createdAt := if p.createdAt = 0 then now else p.createdAt,
    connected := true, lastPing := now }
  (List.filter (fun kv => !(kv.1 == p.id)) reg) ++ [(p.id, p')]

/-- Model of `Registry.RemovePeer`: drop the entry for the id. -/
def removePeer (reg : Registry) (id : String) : Registry :=
  List.filter (fun kv => !(kv.1 == id)) reg

/-- Joint state of the signaling hub: the connection map (peer id to a
token identifying the `PeerConnection` value), the peer registry, and
the sets of connection tokens whose cancellation was tripped and whose
channel was closed. -/
structure HubState where
  connections : List (String × Nat)
  registry : Registry
  cancelled : List Nat
  closed : List Nat
deriving DecidableEq, Repr

/-- Hub state at server start. -/
def hubInit : HubState := ⟨[], [], [], []⟩

/-- The fresh `models.Peer` that `handleWebSocket` constructs for every
accepted upgrade: `Connected`, `LastPing` and `CreatedAt` are zero
values at this point. -/
def freshPeer (peerType id edgeID publicKey : String) : Peer :=
  ⟨id, peerType, edgeID, publicKey, false, 0, 0⟩

/-- Model of the admission block of `handleWebSocket` (signaling
package): add the fresh peer to the registry; then, under the hub
lock, cancel and close any existing connection for the id and install
the newcomer in the connection map. -/
def admitConnection (now : Int) (token : Nat)
    (peerType id edgeID publicKey : String) (s : HubState) : HubState :=
  let reg' := addPeer now s.registry (freshPeer peerType id edgeID publicKey)
  match List.lookup id s.connections with
  | some old =>
    { connections := (List.filter (fun kv => !(kv.1 == id)) s.connections) ++ [(id, token)],
      registry := reg',
      cancelled := old :: s.cancelled,
      closed := old :: s.closed }
  | none =>
    { s with connections := s.connections ++ [(id, token)], registry := reg' }

/-- Model of the deferred cleanup of `handleWebSocket`, run when a
connection's read loop exits: cancel the handle, close the channel,
remove the peer from the registry BY ID and delete the connection map
entry BY ID (the source never checks that the entry still belongs to
this connection). -/
def teardownConnection (token : Nat) (id : String) (s : HubState) : HubState :=
  { connections := List.filter (fun kv => !(kv.1 == id)) s.connections,
    registry := removePeer s.registry id,
    cancelled := token :: s.cancelled,
    closed := token :: s.closed }

/-- Model of `handleGenerateCredentials` (POST /api/v1/credentials) for
a request whose JSON body parsed, with `peerType`/`peerID`/`reqTTL` the
decoded fields (Go zero values stand for absent fields): `none` is the
400 rejection, `some` the 200 payload's credential. -/
def handleGenerateCredentials (secret : String) (cfgTTL now : Int)
    (peerType peerID : String) (reqTTL : Int) : Option TurnCredential :=
  if peerType = "" || peerID = "" then none
  else if peerType ≠ "edge" && peerType ≠ "client" then none
  else
    let ttl := if reqTTL = 0 then cfgTTL else reqTTL
    some (generateTURNCredentials secret now peerType peerID ttl)

/-- Model of `handleGetICEServers` (GET /api/v1/ice-servers):
`peerTypeParam` is the raw query value, with `""` standing for an
absent or empty parameter (Fiber's `Query` substitutes the default
"client" in both cases); only an empty `peer_id` is rejected, and the
returned credential embeds the effective peer type verbatim. -/
def handleGetICEServers (secret : String) (cfgTTL now : Int)
    (peerTypeParam peerID : String) : Option TurnCredential :=
  let peerType := if peerTypeParam = "" then "client" else peerTypeParam
  if peerID = "" then none
  else some (generateTURNCredentials secret now peerType peerID cfgTTL)

/-- Model of `handleDeleteService` (DELETE /api/v1/services/:id): any
storage failure, including "service not found", is answered with HTTP
500 (`ErrorInternalServerErrorResp`); success with 200. -/
def handleDeleteService (st : Store) (id : String) : Store × Nat :=
  match deleteEdgeService st id with
  | Except.error _ => (st, 500)
  | Except.ok st' => (st', 200)

/-- Model of `handleRotateSecrets` (POST /api/v1/admin/secrets) for a
request whose body parsed into `{secret, old_secrets}`: reject an
empty secret with 400; otherwise the source merely logs and returns
200 with the literal message below — the call into
`Server.UpdateSecrets` is a TODO comment, so the auth state is passed
through UNCHANGED. -/
def handleRotateSecrets (h : AuthHandlerState) (secret : String)
    (_oldSecrets : List String) : AuthHandlerState × Nat × String :=
  if secret = "" then (h, 400, "secret is required")
  else (h, 200, "Secrets rotation endpoint - to be implemented")

/-- Digits emitted by `decDigit` are decimal characters. -/
theorem decDigit_isDec : ∀ d, d < 10 → isDec (decDigit d) = true := by decide

/-- Numeric value of an emitted digit round-trips. -/
theorem decVal_decDigit : ∀ d, d < 10 → decVal (decDigit d) = d := by decide

/-- Appending one digit multiplies the accumulated value by ten. -/
theorem parseDecValue_append (l : List Char) (c : Char) :
    parseDecValue (l ++ [c]) = 10 * parseDecValue l + decVal c := by
  simp [parseDecValue, List.foldl_append]

/-- Every character the fueled digit emitter produces is a digit. -/
theorem natDecRevCharsAux_all_isDec :
    ∀ fuel n c, c ∈ natDecRevCharsAux fuel n → isDec c = true := by
  intro fuel
  induction fuel with
  | zero =>
    intro n c hc
    cases n with
    | zero => simp [natDecRevCharsAux] at hc
    | succ m => simp [natDecRevCharsAux] at hc
  | succ fuel ih =>
    intro n c hc
    cases n with
    | zero => simp [natDecRevCharsAux] at hc
    | succ m =>
      simp only [natDecRevCharsAux, List.mem_cons] at hc
      rcases hc with hc | hc
      · exact hc ▸ decDigit_isDec _ (Nat.mod_lt _ (by decide))
      · exact ih _ _ hc

/-- With enough fuel the emitted digits, read back big-endian, give the
number back. -/
theorem natDecRevCharsAux_parse :
    ∀ fuel n, n ≤ fuel → parseDecValue ((natDecRevCharsAux fuel n).reverse) = n := by
  intro fuel
  induction fuel with
  | zero =>
    intro n hn
    have : n = 0 := Nat.le_zero.mp hn
    subst this
    simp [natDecRevCharsAux, parseDecValue]
  | succ fuel ih =>
    intro n hn
    cases n with
    | zero => simp [natDecRevCharsAux, parseDecValue]
    | succ m =>
      have hdiv : (m + 1) / 10 ≤ fuel := by
        have h1 : (m + 1) / 10 < m + 1 := Nat.div_lt_self (Nat.succ_pos m) (by decide)
        omega
      calc parseDecValue ((natDecRevCharsAux (fuel + 1) (m + 1)).reverse)
          = parseDecValue ((natDecRevCharsAux fuel ((m + 1) / 10)).reverse
              ++ [decDigit ((m + 1) % 10)]) := by
            simp [natDecRevCharsAux, List.reverse_cons]
        _ = 10 * parseDecValue ((natDecRevCharsAux fuel ((m + 1) / 10)).reverse)
              + decVal (decDigit ((m + 1) % 10)) := parseDecValue_append _ _
        _ = 10 * ((m + 1) / 10) + (m + 1) % 10 := by
            rw [ih _ hdiv, decVal_decDigit _ (Nat.mod_lt _ (by decide))]
        _ = m + 1 := Nat.div_add_mod (m + 1) 10

/-- A positive number yields at least one digit. -/
theorem natDecRevCharsAux_ne_nil (fuel n : Nat) (h0 : 0 < n) (hf : n ≤ fuel) :
    natDecRevCharsAux fuel n ≠ [] := by
  cases fuel with
  | zero => omega
  | succ fuel =>
    cases n with
    | zero => omega
    | succ m => simp [natDecRevCharsAux]

/-- Digits of `natToDecChars` are decimal characters. -/
theorem natToDecChars_all_isDec (n : Nat) :
    ∀ c ∈ natToDecChars n, isDec c = true := by
  intro c hc
  unfold natToDecChars at hc
  by_cases h : n = 0
  · simp [h] at hc
    subst hc
    decide
  · rw [if_neg h, List.mem_reverse] at hc
    exact natDecRevCharsAux_all_isDec _ _ _ hc

/-- The decimal rendering is never the empty string. -/
theorem natToDecChars_ne_nil (n : Nat) : natToDecChars n ≠ [] := by
  unfold natToDecChars
  by_cases h : n = 0
  · simp [h]
  · rw [if_neg h]
    intro hrev
    exact natDecRevCharsAux_ne_nil n n (Nat.pos_of_ne_zero h) le_rfl
      (List.reverse_eq_nil_iff.mp hrev)

/-- Parsing the decimal rendering of a natural number succeeds and
returns the number. -/
theorem parseDecNat_natToDecChars (n : Nat) :
    parseDecNat (natToDecChars n) = some n := by
  unfold parseDecNat
  rw [if_neg (natToDecChars_ne_nil n)]
  rw [if_pos (List.all_eq_true.mpr (natToDecChars_all_isDec n))]
  congr 1
  unfold natToDecChars
  by_cases h : n = 0
  · simp [h, parseDecValue, decVal]
  · rw [if_neg h]
    exact natDecRevCharsAux_parse n n le_rfl

/-- The splitter never produces the empty list of segments. -/
theorem splitCharList_ne_nil (sep : Char) (l : List Char) :
    splitCharList sep l ≠ [] := by
  cases l with
  | nil => simp [splitCharList]
  | cons c cs =>
    unfold splitCharList
    by_cases h : c = sep
    · simp [h]
    · rw [if_neg h]
      cases splitCharList sep cs with
      | nil => simp
      | cons a t => simp

/-- A separator-free list is one whole segment. -/
theorem splitCharList_noSep (sep : Char) (l : List Char) (h : sep ∉ l) :
    splitCharList sep l = [l] := by
  induction l with
  | nil => rfl
  | cons c cs ih =>
    have hc : c ≠ sep := fun hcs => h (hcs ▸ List.mem_cons_self c cs)
    have hcs : sep ∉ cs := fun hin => h (List.mem_cons_of_mem c hin)
    unfold splitCharList
    rw [if_neg hc, ih hcs]

/-- Splitting after a separator-free prefix peels that prefix off as
the first segment. -/
theorem splitCharList_append (sep : Char) (l rest : List Char) (h : sep ∉ l) :
    splitCharList sep (l ++ sep :: rest) = l :: splitCharList sep rest := by
  induction l with
  | nil => simp [splitCharList]
  | cons c cs ih =>
    have hc : c ≠ sep := fun hcs => h (hcs ▸ List.mem_cons_self c cs)
    have hcs : sep ∉ cs := fun hin => h (List.mem_cons_of_mem c hin)
    have ih' := ih hcs
    show splitCharList sep (c :: (cs ++ sep :: rest)) = (c :: cs) :: splitCharList sep rest
    rw [splitCharList.eq_def]
    simp only [if_neg hc]
    rw [ih']

/-- On a three-field colon-joined list with colon-free fields, the
SplitN model returns exactly the three fields. -/
theorem goSplitN3Chars_three (a b c : List Char)
    (ha : ':' ∉ a) (hb : ':' ∉ b) (hc : ':' ∉ c) :
    goSplitN3Chars (a ++ ':' :: (b ++ ':' :: c)) = [a, b, c] := by
  unfold goSplitN3Chars
  rw [splitCharList_append ':' a (b ++ ':' :: c) ha,
    splitCharList_append ':' b c hb, splitCharList_noSep ':' c hc]
  simp [List.intercalate, List.intersperse]

/-- String append distributes over the underlying character lists. -/
theorem stringDataAppend (a b : String) : (a ++ b).data = a.data ++ b.data :=
  String.data_append a b

/-- Character-level view of a generated TURN username. -/
theorem turnUsername_data (pt pid : String) (e : Int) :
    (turnUsername pt pid e).data = pt.data ++ ':' :: (pid.data ++ ':' :: intToDecChars e) := by
  show ((pt ++ ":" ++ pid ++ ":" ++ String.mk (intToDecChars e)).data) = _
  rw [stringDataAppend, stringDataAppend, stringDataAppend, stringDataAppend]
  show pt.data ++ [':'] ++ pid.data ++ [':'] ++ intToDecChars e = _
  simp

/-- A non-negative integer renders through `intToDecChars` as decimal
digits only; in particular no colon appears. -/
theorem intToDecChars_nonneg (e : Int) (he : 0 ≤ e) :
    intToDecChars e = natToDecChars e.toNat := by
  unfold intToDecChars
  rw [if_neg (by omega)]

/-- Digit strings contain no colon. -/
theorem natToDecChars_no_colon (n : Nat) : ':' ∉ natToDecChars n := by
  intro hmem
  have := natToDecChars_all_isDec n ':' hmem
  simp [isDec] at this

/-- Splitting a generated TURN username with colon-free type and id
returns the three expected fields. -/
theorem goSplitN3_turnUsername (pt pid : String) (e : Int)
    (hpt : ':' ∉ pt.data) (hpid : ':' ∉ pid.data) (he : 0 ≤ e) :
    goSplitN3 (turnUsername pt pid e) = [pt, pid, String.mk (intToDecChars e)] := by
  unfold goSplitN3
  rw [turnUsername_data, goSplitN3Chars_three pt.data pid.data (intToDecChars e) hpt hpid
    (by rw [intToDecChars_nonneg e he]; exact natToDecChars_no_colon _)]
  cases pt
  cases pid
  rfl

/-- Parsing the rendering of a non-negative in-range integer gives the
integer back. -/
theorem goParseInt64_render (e : Int) (he : 0 ≤ e)
    (hb : e ≤ 9223372036854775807) :
    goParseInt64 (String.mk (intToDecChars e)) = some e := by
  rw [intToDecChars_nonneg e he]
  rcases hchars : natToDecChars e.toNat with _ | ⟨c, cs⟩
  · exact absurd hchars (natToDecChars_ne_nil _)
  · have hdec : isDec c = true := by
      apply natToDecChars_all_isDec e.toNat
      rw [hchars]
      exact List.mem_cons_self c cs
    have hcm : c ≠ '-' := by
      intro hcontr
      rw [hcontr] at hdec
      simp [isDec] at hdec
    have hcp : c ≠ '+' := by
      intro hcontr
      rw [hcontr] at hdec
      simp [isDec] at hdec
    show goParseInt64Chars (c :: cs) = some e
    unfold goParseInt64Chars
    simp only [if_neg hcm, if_neg hcp]
    rw [← hchars, parseDecNat_natToDecChars]
    have hbound : e.toNat ≤ 9223372036854775807 := by omega
    simp only [Option.bind_some, Option.some_bind, if_pos hbound]
    congr 1
    omega

/-- Behaviour of the REST authentication callback on any generated
username with colon-free peer type and id: the format checks pass, the
two expiry-window checks decide acceptance, and, on acceptance, the
key material comes from the first non-empty secret of the snapshot. -/
theorem restAuth_generated (h : AuthHandlerState) (now e : Int)
    (pt pid realm : String)
    (hpt : ':' ∉ pt.data) (hpid : ':' ∉ pid.data)
    (he : 0 ≤ e) (hb : e ≤ 9223372036854775807) :
    restAuth h now (turnUsername pt pid e) realm =
      if e < now then none
      else if now + 172800 < e then none
      else
        match (h.secret :: h.oldSecrets).find? (fun s => !(s == "")) with
        | none => none
        | some s =>
          some (generateAuthKey (turnUsername pt pid e) realm
            (hmacSha256B64 s (turnUsername pt pid e))) := by
  unfold restAuth
  rw [goSplitN3_turnUsername pt pid e hpt hpid he]
  simp only [goParseInt64_render e he hb]

/-- Filtering out a key makes its lookup fail. -/
theorem lookup_filter_ne {α : Type} (l : List (String × α)) (k : String) :
    List.lookup k (List.filter (fun kv => !(kv.1 == k)) l) = none := by
  induction l with
  | nil => rfl
  | cons kv t ih =>
    by_cases hk : kv.1 = k
    · simpa [List.filter, hk] using ih
    · have h1 : (kv.1 == k) = false := beq_eq_false_iff_ne.mpr hk
      have h2 : (k == kv.1) = false := beq_eq_false_iff_ne.mpr (Ne.symm hk)
      simpa [List.filter, h1, List.lookup, h2] using ih

/-- Lookup skips a prefix in which the key does not occur. -/
theorem lookup_append_right {α : Type} (l1 l2 : List (String × α)) (k : String)
    (h : List.lookup k l1 = none) :
    List.lookup k (l1 ++ l2) = List.lookup k l2 := by
  induction l1 with
  | nil => rfl
  | cons kv t ih =>
    by_cases hk : k = kv.1
    · simp [List.lookup, beq_iff_eq.mpr hk] at h
    · have h2 : (k == kv.1) = false := beq_eq_false_iff_ne.mpr hk
      simp only [List.lookup, h2] at h
      show List.lookup k (kv :: (t ++ l2)) = _
      simp only [List.lookup, h2]
      exact ih h

/-- Looking up the admitted id after `addPeer` returns the stored
descriptor: `createdAt` is stamped with now exactly when the supplied
descriptor carried the zero value. -/
theorem addPeer_lookup (now : Int) (reg : Registry) (p : Peer) :
    List.lookup p.id (addPeer now reg p) =
      some { p with createdAt := if p.createdAt = 0 then now else p.createdAt,
                    connected := true, lastPing := now } := by
  unfold addPeer
  rw [lookup_append_right _ _ _ (lookup_filter_ne _ _)]
  simp [List.lookup]

/-- Each batch iteration tallies exactly one entry as success or
failure. -/
theorem batchStep_tally (now : Int) (pid : String) (st : BatchState)
    (e : BatchEntry) :
    (batchStep now pid st e).success + (batchStep now pid st e).failed =
      st.success + st.failed + 1 := by
  cases e with
  | malformed =>
    simp [batchStep]
    omega
  | parsed svc0 =>
    unfold batchStep
    rcases hv : validateService { svc0 with edgeID := pid } with _ | _
    · simp [hv]
      omega
    · rcases hu : updateService now st.store { svc0 with edgeID := pid } with _ | _
      · rcases hc : createService now st.store { svc0 with edgeID := pid } with _ | _
        · simp [hv, hu, hc]
          omega
        · simp [hv, hu, hc]
          omega
      · simp [hv, hu]
        omega

/-- The batch loop tallies every entry exactly once. -/
theorem batchFold_tally (entries : List BatchEntry) (now : Int) (pid : String)
    (s0 : BatchState) :
    (entries.foldl (batchStep now pid) s0).success +
      (entries.foldl (batchStep now pid) s0).failed =
      s0.success + s0.failed + entries.length := by
  induction entries generalizing s0 with
  | nil => simp
  | cons e es ih =>
    simp only [List.foldl_cons, List.length_cons]
    rw [ih (batchStep now pid s0 e)]
    have := batchStep_tally now pid s0 e
    omega

/-- Claim C1 (counterexample): the claim's "if and only if" fails on
the code. With snapshot secret "y", a well-formed unexpired credential
whose password was computed under a DIFFERENT secret "x" is still
accepted by `restAuth` (key material is returned), although no secret
in the snapshot reproduces its password, so the claim's acceptance
condition is false at this input. -/
theorem restAuth_ignores_password_counterexample :
    (restAuth ⟨"y", [], 600⟩ 1000
      (generateTURNCredentials "x" 1000 "edge" "e1" 60).username "r").isSome = true ∧
    ¬ claimC1Accepts 1000 60 1000 ["y"]
        (generateTURNCredentials "x" 1000 "edge" "e1" 60).password
        (generateTURNCredentials "x" 1000 "edge" "e1" 60).username := by
  constructor
  · decide
  · decide

/-- Claim C1 (amended): for a credential issued at `t0` with ttl `T`
(expiry `t0 + T`, colon-free peer type and id), the callback returns
key material iff `t ≤ t0 + T`, `t0 + T ≤ t + 48h`, and the snapshot
holds at least one non-empty secret; the credential's password (and
the secret it was issued under) play no role in the decision. -/
theorem restAuth_accepts_iff_window_and_nonempty_secret
    (h : AuthHandlerState) (issueSecret realm pt pid : String) (t0 T t : Int)
    (hpt : ':' ∉ pt.data) (hpid : ':' ∉ pid.data)
    (he : 0 ≤ t0 + T) (hb : t0 + T ≤ 9223372036854775807) :
    (restAuth h t (generateTURNCredentials issueSecret t0 pt pid T).username realm).isSome
      ↔ (t ≤ t0 + T ∧ t0 + T ≤ t + 172800 ∧
          ∃ s ∈ h.secret :: h.oldSecrets, s ≠ "") := by
  have husr : (generateTURNCredentials issueSecret t0 pt pid T).username =
      turnUsername pt pid (t0 + T) := rfl
  rw [husr, restAuth_generated h t (t0 + T) pt pid realm hpt hpid he hb]
  by_cases h1 : t0 + T < t
  · rw [if_pos h1]
    simp only [Option.isSome_none]
    constructor
    · intro hcontr
      exact absurd hcontr (by simp)
    · intro hcontr
      omega
  · rw [if_neg h1]
    by_cases h2 : t + 172800 < t0 + T
    · rw [if_pos h2]
      simp only [Option.isSome_none]
      constructor
      · intro hcontr
        exact absurd hcontr (by simp)
      · intro hcontr
        omega
    · rw [if_neg h2]
      rcases hf : (h.secret :: h.oldSecrets).find? (fun s => !(s == "")) with _ | s
      · simp only [Option.isSome_none]
        constructor
        · intro hcontr
          exact absurd hcontr (by simp)
        · rintro ⟨-, -, s, hs, hne⟩
          have := List.find?_eq_none.mp hf s hs
          simp [hne] at this
      · simp only [Option.isSome_some, true_iff]
        refine ⟨by omega, by omega, s, List.mem_of_find?_eq_some hf, ?_⟩
        have := List.find?_some hf
        simpa using this

/-- Claim C1 (witness): the amended theorem applied at a concrete
input: snapshot secret "y", credential issued under "x" at 1000 with
ttl 60, examined at 1000. -/
theorem restAuth_accepts_iff_witness :
    (restAuth ⟨"y", [], 600⟩ 1000
      (generateTURNCredentials "x" 1000 "edge" "e1" 60).username "r").isSome :=
  (restAuth_accepts_iff_window_and_nonempty_secret ⟨"y", [], 600⟩ "x" "r" "edge" "e1"
    1000 60 1000 (by decide) (by decide) (by decide) (by decide)).mpr (by decide)

/-- Claim C2 (code bug): secret rotation does not preserve grace-period
validity. Before rotation a credential issued under "a" authenticates;
after `UpdateSecrets "b" ["a"]` the callback derives key material from
the current secret "b" only, so the relay-side comparison against the
client's "a"-derived password fails even though "a" sits in the old-
secret list; and after a second rotation to ("c", ["b"]) the callback
STILL returns key material for the original credential. -/
theorem rotation_grace_period_broken :
    relayAccepts ⟨"a", [], 600⟩ 1100
      (generateTURNCredentials "a" 1000 "edge" "e1" 600).username "r"
      (generateTURNCredentials "a" 1000 "edge" "e1" 600).password = true ∧
    relayAccepts (UpdateSecrets ⟨"a", [], 600⟩ "b" ["a"] 600) 1200
      (generateTURNCredentials "a" 1000 "edge" "e1" 600).username "r"
      (generateTURNCredentials "a" 1000 "edge" "e1" 600).password = false ∧
    (restAuth (UpdateSecrets (UpdateSecrets ⟨"a", [], 600⟩ "b" ["a"] 600) "c" ["b"] 600)
      1300 (generateTURNCredentials "a" 1000 "edge" "e1" 600).username "r").isSome = true := by
  refine ⟨by decide, by decide, by decide⟩

/-- Claim C3 (code bug): a `service-sync` delete from edge "E2" removes
a record owned by edge "E1" and acks success: `deleteService` performs
no ownership check, so the store changes although the incumbent's
`edge_id` differs from the peer id of the initiating connection. -/
theorem service_delete_ignores_ownership :
    handleServiceSync 100 "E2" "deleted"
      ⟨"S1", "", "ok", 8080, "h", 3000, "http", true, 0, 0⟩
      [⟨"S1", "E1", "ok", 8080, "h", 3000, "http", true, 50, 50⟩] =
      ([], ⟨"S1", "S1", "success", ""⟩) ∧
    (getEdgeService [⟨"S1", "E1", "ok", 8080, "h", 3000, "http", true, 50, 50⟩] "S1").map
      EdgeService.edgeID = some "E1" ∧
    ("E1" : String) ≠ "E2" := by
  refine ⟨by decide, by decide, by decide⟩

/-- Claim C4 (code bug): duplicate admission followed by the preempted
incumbent's deferred teardown. On re-admission of id "E" the incumbent
(token 1) is cancelled and closed and the newcomer (token 2) is
registered; but when the incumbent's read loop exits, its deferred
cleanup removes the registry entry and the connection-map entry BY ID,
so afterwards neither map holds any entry for "E" even though the
newcomer was never cancelled — the claim's "exactly one entry (the
newcomer's)" fails. -/
theorem duplicate_admission_teardown_clears_newcomer :
    (admitConnection 200 2 "edge" "E" "" ""
      (admitConnection 100 1 "edge" "E" "" "" hubInit)).cancelled = [1] ∧
    (admitConnection 200 2 "edge" "E" "" ""
      (admitConnection 100 1 "edge" "E" "" "" hubInit)).closed = [1] ∧
    List.lookup "E" (admitConnection 200 2 "edge" "E" "" ""
      (admitConnection 100 1 "edge" "E" "" "" hubInit)).connections = some 2 ∧
    (List.lookup "E" (admitConnection 200 2 "edge" "E" "" ""
      (admitConnection 100 1 "edge" "E" "" "" hubInit)).registry).isSome = true ∧
    List.lookup "E" (teardownConnection 1 "E" (admitConnection 200 2 "edge" "E" "" ""
      (admitConnection 100 1 "edge" "E" "" "" hubInit))).connections = none ∧
    List.lookup "E" (teardownConnection 1 "E" (admitConnection 200 2 "edge" "E" "" ""
      (admitConnection 100 1 "edge" "E" "" "" hubInit))).registry = none ∧
    ¬ (2 ∈ (teardownConnection 1 "E" (admitConnection 200 2 "edge" "E" "" ""
      (admitConnection 100 1 "edge" "E" "" "" hubInit))).cancelled) := by
  refine ⟨by decide, by decide, by decide, by decide, by decide, by decide, by decide⟩

/-- Claim C5 (code bug): the admin secrets route is a stub. With live
secret "a", a POST with body secret "b", old secrets ["a"] returns 200
and a success message, yet the auth state it hands back is the
UNCHANGED input state: a credential issued under the new secret "b"
still fails to authenticate afterwards, whereas it would succeed had
the handler invoked `UpdateSecrets` as the claim requires. -/
theorem rotate_secrets_endpoint_no_rotation :
    handleRotateSecrets ⟨"a", [], 600⟩ "b" ["a"] =
      (⟨"a", [], 600⟩, 200, "Secrets rotation endpoint - to be implemented") ∧
    relayAccepts (handleRotateSecrets ⟨"a", [], 600⟩ "b" ["a"]).1 1100
      (generateTURNCredentials "b" 1000 "edge" "e1" 600).username "r"
      (generateTURNCredentials "b" 1000 "edge" "e1" 600).password = false ∧
    relayAccepts (UpdateSecrets ⟨"a", [], 600⟩ "b" ["a"] 600) 1100
      (generateTURNCredentials "b" 1000 "edge" "e1" 600).username "r"
      (generateTURNCredentials "b" 1000 "edge" "e1" 600).password = true := by
  refine ⟨by decide, by decide, by decide⟩

/-- Claim C6 (counterexample): the batch loop falls back to create even
when the update failed for a reason OTHER than "record does not
exist". With a stored record "S1" owned by edge "E1", a batch from
edge "E2" containing "S1" fails ownership on update, yet the loop
still attempts a create (which then fails on the duplicate primary
key); the claim's "only when the update failed because the record does
not exist" is therefore false. -/
theorem batch_fallback_create_despite_existing_record :
    (handleServiceSyncBatch 100 "E2"
      [BatchEntry.parsed ⟨"S1", "", "ok", 8080, "h", 3000, "http", true, 0, 0⟩]
      [⟨"S1", "E1", "ok", 8080, "h", 3000, "http", true, 50, 50⟩]).1.trace =
      [TraceOp.triedUpdate "S1", TraceOp.triedCreate "S1"] ∧
    (getEdgeService [⟨"S1", "E1", "ok", 8080, "h", 3000, "http", true, 50, 50⟩] "S1").isSome
      = true ∧
    (handleServiceSyncBatch 100 "E2"
      [BatchEntry.parsed ⟨"S1", "", "ok", 8080, "h", 3000, "http", true, 0, 0⟩]
      [⟨"S1", "E1", "ok", 8080, "h", 3000, "http", true, 50, 50⟩]).2 =
      BatchResult.ack "success" "Synced 0 services" := by
  refine ⟨by decide, by decide, by decide⟩

/-- Claim C6 (amended): at most `maxBatchSize` entries: the handler
processes every entry (each is tallied exactly once as success or
failure, so per-entry failures do not abort the batch) and emits
exactly one summary ack "Synced N services" with N the success tally,
where the fallback to create fires on ANY update failure; above
`maxBatchSize`: exactly one top-level error message, no ack, and the
store is untouched. -/
theorem batch_sync_single_ack_and_tally (now : Int) (pid : String)
    (entries : List BatchEntry) (st : Store) :
    (entries.length ≤ maxBatchSize →
      (handleServiceSyncBatch now pid entries st).2 =
        BatchResult.ack "success"
          ("Synced " ++ toString (handleServiceSyncBatch now pid entries st).1.success
            ++ " services") ∧
      (handleServiceSyncBatch now pid entries st).1.success +
        (handleServiceSyncBatch now pid entries st).1.failed = entries.length) ∧
    (maxBatchSize < entries.length →
      (handleServiceSyncBatch now pid entries st).2 =
        BatchResult.errorMsg "Batch size exceeds maximum of 1000 services" ∧
      (handleServiceSyncBatch now pid entries st).1.store = st) := by
  constructor
  · intro hle
    unfold handleServiceSyncBatch
    rw [if_neg (by omega)]
    refine ⟨rfl, ?_⟩
    have := batchFold_tally entries now pid ⟨st, 0, 0, []⟩
    simpa using this
  · intro hgt
    unfold handleServiceSyncBatch
    rw [if_pos (by omega : maxBatchSize < entries.length)]
    refine ⟨?_, rfl⟩
    show BatchResult.errorMsg ("Batch size exceeds maximum of " ++ toString maxBatchSize
      ++ " services") = BatchResult.errorMsg "Batch size exceeds maximum of 1000 services"
    congr 1

/-- Claim C6 (witness): the amended theorem applied to a one-entry
batch whose entry is malformed. -/
theorem batch_sync_single_ack_and_tally_witness :
    (handleServiceSyncBatch 0 "E" [BatchEntry.malformed] []).2 =
      BatchResult.ack "success"
        ("Synced " ++ toString (handleServiceSyncBatch 0 "E" [BatchEntry.malformed] []).1.success
          ++ " services") ∧
    (handleServiceSyncBatch 0 "E" [BatchEntry.malformed] []).1.success +
      (handleServiceSyncBatch 0 "E" [BatchEntry.malformed] []).1.failed = 1 :=
  (batch_sync_single_ack_and_tally 0 "E" [BatchEntry.malformed] []).1 (by decide)

/-- Claim C7 (counterexample): deleting a missing id does fail with
`notFound` at the storage layer, but the HTTP handler reports the
failure with status 500, not 404 as the claim states. -/
theorem delete_service_http_returns_500_not_404 :
    deleteEdgeService ([] : Store) "x" = Except.error StoreError.notFound ∧
    handleDeleteService ([] : Store) "x" = ([], 500) ∧
    (500 : Nat) ≠ 404 := by
  refine ⟨by decide, by decide, by decide⟩

/-- Claim C7 (amended): deleting a service by an id not present in the
store fails with `notFound`, and DELETE /api/v1/services/:id reports
every delete failure — including not-found — with status 500, leaving
the store unchanged. -/
theorem delete_missing_service_notfound_500 (st : Store) (id : String)
    (h : getEdgeService st id = none) :
    deleteEdgeService st id = Except.error StoreError.notFound ∧
    handleDeleteService st id = (st, 500) := by
  have hall : ∀ s ∈ st, ¬ ((s.id == id) = true) := List.find?_eq_none.mp h
  have hfilter : List.filter (fun s => !(s.id == id)) st = st := by
    apply List.filter_eq_self.mpr
    intro a ha
    simp [hall a ha]
  have hdel : deleteEdgeService st id = Except.error StoreError.notFound := by
    unfold deleteEdgeService
    simp [hfilter]
  refine ⟨hdel, ?_⟩
  unfold handleDeleteService
  rw [hdel]

/-- Claim C7 (witness): the amended theorem applied to a one-record
store and a missing id. -/
theorem delete_missing_service_notfound_500_witness :
    deleteEdgeService ([⟨"S1", "E1", "ok", 8080, "h", 3000, "http", true, 0, 0⟩] : Store)
      "zz" = Except.error StoreError.notFound ∧
    handleDeleteService ([⟨"S1", "E1", "ok", 8080, "h", 3000, "http", true, 0, 0⟩] : Store)
      "zz" = ([⟨"S1", "E1", "ok", 8080, "h", 3000, "http", true, 0, 0⟩], 500) :=
  delete_missing_service_notfound_500 _ "zz" (by decide)

/-- Claim C8 (counterexample): a duplicate-id admission does NOT keep
the first admission's `created_at`. Admitting "E" at time 100 stores
`created_at = 100`; re-admitting the same id at time 200 stores
`created_at = 200`, because `handleWebSocket` always supplies a fresh
descriptor whose `CreatedAt` is the zero value. -/
theorem created_at_reset_on_duplicate_admission :
    (List.lookup "E" (admitConnection 100 1 "edge" "E" "" "" hubInit).registry).map
      Peer.createdAt = some 100 ∧
    (List.lookup "E" (admitConnection 200 2 "edge" "E" "" ""
      (admitConnection 100 1 "edge" "E" "" "" hubInit)).registry).map
      Peer.createdAt = some 200 ∧
    (100 : Int) ≠ 200 := by
  refine ⟨by decide, by decide, by decide⟩

/-- Claim C8 (amended): `AddPeer` preserves `created_at` exactly when
the caller supplies a non-zero one; the WebSocket admission path
always supplies the zero value, so every admission — first or
duplicate — stamps the registered peer's `created_at` with the
admission time. -/
theorem created_at_preserved_only_when_supplied :
    (∀ (now : Int) (reg : Registry) (p : Peer), p.createdAt ≠ 0 →
      (List.lookup p.id (addPeer now reg p)).map Peer.createdAt = some p.createdAt) ∧
    (∀ (now : Int) (token : Nat) (pt id eid pk : String) (s : HubState),
      (List.lookup id (admitConnection now token pt id eid pk s).registry).map
        Peer.createdAt = some now) := by
  constructor
  · intro now reg p hp
    rw [addPeer_lookup]
    simp [if_neg hp]
  · intro now token pt id eid pk s
    unfold admitConnection
    rcases hl : List.lookup id s.connections with _ | old
    · simp only [hl]
      have := addPeer_lookup now s.registry (freshPeer pt id eid pk)
      simp [freshPeer] at this
      simp [freshPeer, this]
    · simp only [hl]
      have := addPeer_lookup now s.registry (freshPeer pt id eid pk)
      simp [freshPeer] at this
      simp [freshPeer, this]

/-- Claim C8 (witness): the amended theorem's preservation half applied
to a descriptor carrying `created_at = 77`. -/
theorem created_at_preserved_witness :
    (List.lookup "E" (addPeer 500 [] ⟨"E", "edge", "", "", false, 0, 77⟩)).map
      Peer.createdAt = some 77 :=
  created_at_preserved_only_when_supplied.1 500 [] ⟨"E", "edge", "", "", false, 0, 77⟩
    (by decide)

/-- Claim C9 (counterexample): the issue/verify round trip FAILS for a
peer id containing ':'. The credential for id "a:b" issued under "s"
with ttl 60 at time 1000 is rejected outright at time 1030 under
secret set ("s"): `SplitN(_,":",3)` folds "b:1060" into the third
field, which then fails integer parsing, so no key material is
returned. -/
theorem roundtrip_fails_for_colon_id :
    restAuth ⟨"s", [], 60⟩ 1030
      (generateTURNCredentials "s" 1000 "edge" "a:b" 60).username "r" = none ∧
    relayAccepts ⟨"s", [], 60⟩ 1030
      (generateTURNCredentials "s" 1000 "edge" "a:b" 60).username "r"
      (generateTURNCredentials "s" 1000 "edge" "a:b" 60).password = false := by
  refine ⟨by decide, by decide⟩

/-- Claim C9 (amended): for every peer type and peer id WITHOUT ':',
non-empty secret S, and examination time t with t0 ≤ t < t0 + ttl and
expiry within the 48-hour window (automatic whenever ttl ≤ 48h), a
credential issued under S authenticates under secret set (S):
the callback returns the S-derived key material and the relay-side
comparison against the issued password succeeds. -/
theorem issue_verify_roundtrip_colon_free
    (S pt pid realm : String) (cfgTTL T t0 t : Int)
    (hS : S ≠ "") (hpt : ':' ∉ pt.data) (hpid : ':' ∉ pid.data)
    (h0 : 0 ≤ t0) (h1 : t0 ≤ t) (h2 : t < t0 + T) (h3 : t0 + T ≤ t + 172800)
    (hb : t0 + T ≤ 9223372036854775807) :
    relayAccepts ⟨S, [], cfgTTL⟩ t
      (generateTURNCredentials S t0 pt pid T).username realm
      (generateTURNCredentials S t0 pt pid T).password = true := by
  have husr : (generateTURNCredentials S t0 pt pid T).username =
      turnUsername pt pid (t0 + T) := rfl
  have hpw : (generateTURNCredentials S t0 pt pid T).password =
      hmacSha256B64 S (turnUsername pt pid (t0 + T)) := rfl
  unfold relayAccepts
  rw [husr, hpw,
    restAuth_generated ⟨S, [], cfgTTL⟩ t (t0 + T) pt pid realm hpt hpid (by omega) hb]
  rw [if_neg (by omega : ¬ (t0 + T < t)), if_neg (by omega : ¬ (t + 172800 < t0 + T))]
  have hfind : (AuthHandlerState.secret ⟨S, [], cfgTTL⟩ ::
      AuthHandlerState.oldSecrets ⟨S, [], cfgTTL⟩).find? (fun s => !(s == "")) = some S := by
    show ([S].find? (fun s => !(s == ""))) = some S
    have : (!(S == "")) = true := by simpa using hS
    simp [List.find?, this]
  rw [hfind]
  simp

/-- Claim C9 (witness): the amended round trip applied at secret "s",
type "edge", id "e1", ttl 60, issued at 1000, examined at 1030. -/
theorem issue_verify_roundtrip_witness :
    relayAccepts ⟨"s", [], 600⟩ 1030
      (generateTURNCredentials "s" 1000 "edge" "e1" 60).username "r"
      (generateTURNCredentials "s" 1000 "edge" "e1" 60).password = true :=
  issue_verify_roundtrip_colon_free "s" "edge" "e1" "r" 600 60 1000 1030
    (by decide) (by decide) (by decide) (by decide) (by decide) (by decide)
    (by decide) (by decide)

/-- Claim C10: the two credential-issuing routes validate peer type
differently. POST /credentials rejects with 400 exactly when the peer
id is empty or the peer type is outside (edge, client) — empty
included; GET /ice-servers rejects exactly when the peer id is empty,
defaults an absent/empty peer type to "client", and otherwise issues a
credential embedding the supplied peer type string verbatim. -/
theorem credential_routes_peer_type_validation_asymmetry
    (secret : String) (cfgTTL now : Int) (pt pid : String) (reqTTL : Int) :
    ((handleGenerateCredentials secret cfgTTL now pt pid reqTTL = none) ↔
      (pid = "" ∨ (pt ≠ "edge" ∧ pt ≠ "client"))) ∧
    ((handleGetICEServers secret cfgTTL now pt pid = none) ↔ pid = "") ∧
    (pid ≠ "" →
      handleGetICEServers secret cfgTTL now pt pid =
        some (generateTURNCredentials secret now
          (if pt = "" then "client" else pt) pid cfgTTL)) := by
  refine ⟨?_, ?_, ?_⟩
  · unfold handleGenerateCredentials
    by_cases h1 : pt = "" <;> by_cases h2 : pid = "" <;>
      by_cases h3 : pt = "edge" <;> by_cases h4 : pt = "client" <;>
      simp_all
  · unfold handleGetICEServers
    by_cases h : pid = "" <;> simp [h]
  · intro h
    unfold handleGetICEServers
    simp [h]

/-- Claim C10 (witness): a peer type that POST /credentials rejects is
accepted verbatim by GET /ice-servers. -/
theorem credential_routes_asymmetry_witness :
    handleGenerateCredentials "s" 600 1000 "weird type" "p1" 0 = none ∧
    handleGetICEServers "s" 600 1000 "weird type" "p1" =
      some (generateTURNCredentials "s" 1000 "weird type" "p1" 600) := by
  constructor
  · exact (credential_routes_peer_type_validation_asymmetry "s" 600 1000
      "weird type" "p1" 0).1.mpr (by decide)
  · have h := (credential_routes_peer_type_validation_asymmetry "s" 600 1000
      "weird type" "p1" 0).2.2 (by decide)
    rwa [if_neg (by decide)] at h
